import Mathlib

/-!
Shallow embedding of `src/widgets/SearchWidget.cpp` (Cutter's search panel):
the result table model (`SearchModel`), the sort/filter proxy
(`SearchSortFilterProxyModel`) and the panel controller (`SearchWidget`).
Qt strings are embedded as `List Char`; the external analysis-engine facade
(`CutterCore`) and UI configuration are abstract parameters.
-/

/-- Strings as lists of characters (embedding of `QString`). -/
abbrev Str := List Char

/-- Conversion from a Lean string literal to the `Str` embedding. -/
def qs (s : String) : Str := s.data

/-- Decimal rendering of a natural number (embedding of `QString::arg` on an int). -/
def natDecStr (n : Nat) : Str := (Nat.repr n).data

/-- Boolean prefix test on embedded strings: `isPrefixStr p s` holds when `p`
is an initial segment of `s`. -/
def isPrefixStr : Str → Str → Bool
  | [], _ => true
  | _ :: _, [] => false
  | a :: as, b :: bs => decide (a = b) && isPrefixStr as bs

/-- Boolean substring test: `containsStr hay needle` holds when `needle` occurs
contiguously inside `hay` (embedding of `QString::contains`). -/
def containsStr : Str → Str → Bool
  | [], needle => needle.isEmpty
  | c :: t, needle => isPrefixStr needle (c :: t) || containsStr t needle

/-- Lexicographic strict order on embedded strings (embedding of
`QString::operator<`, code-unit comparison). -/
def ltStr : Str → Str → Bool
  | _, [] => false
  | [], _ :: _ => true
  | a :: as, b :: bs => decide (a < b) || (decide (a = b) && ltStr as bs)

/-- Per-character lower-casing (embedding of `QString::toLower`). -/
def lowerStr (s : Str) : Str := s.map Char.toLower

/-- Case folding under a case-insensitivity flag: identity when case-sensitive,
lower-casing when case-insensitive. -/
def caseFold (ci : Bool) (s : Str) : Str := if ci then lowerStr s else s

/-- Embedding of `QString::toHtmlEscaped`: the HTML metacharacters
`<`, `>`, `&` and the double quote are replaced by their named entities. -/
def toHtmlEscaped : Str → Str
  | [] => []
  | c :: t =>
    (if c = '<' then qs "&lt;"
     else if c = '>' then qs "&gt;"
     else if c = '&' then qs "&amp;"
     else if c = '"' then qs "&quot;"
     else [c]) ++ toHtmlEscaped t

/-- Embedding of `QStringList::join("<br>")` as used for the disassembly preview. -/
def joinBr : List Str → Str
  | [] => []
  | [l] => l
  | l :: l2 :: ls => l ++ qs "<br>" ++ joinBr (l2 :: ls)

/-- One search result record. Modelled from the spec: the record type
(`SearchDescription`, declared in `CutterDescriptions.h`, which is not part of
this source tree) holds an `offset` address, an integer `size`, and `code` and
`data` text fields. -/
structure SearchDescription where
  offset : Nat
  size : Int
  code : Str
  data : Str
deriving DecidableEq

/-- The external analysis-engine facade and UI configuration consumed by the
widget (`Core()` / `Config()` in the source), modelled as an abstract record of
the read operations the widget performs. -/
structure CutterCore where
  getCommentAt : Nat → Str
  getDisassemblyPreview : Nat → Nat → List Str
  getHexdumpPreview : Nat → Nat → Str
  getAllSearch : Str → Str → Str → List SearchDescription
  addressString : Nat → Str
  sizeString : Int → Str
  baseFontFamily : Str
  baseFontPointSize : Int

/-- Item data roles the model distinguishes (`Qt::DisplayRole`,
`Qt::ToolTipRole`, `SearchModel::SearchDescriptionRole`); `other` stands for
every remaining role value. -/
inductive Role where
  | display
  | toolTip
  | searchDescriptionRole
  | other
deriving DecidableEq

/-- Embedding of `QVariant` results of the model: null, a string, or a boxed
`SearchDescription` record. -/
inductive QVariantV where
  | null
  | vstr (s : Str)
  | vres (d : SearchDescription)
deriving DecidableEq

/-- Maximum tooltip width in pixels (used only in the style sheet). -/
def kMaxTooltipWidth : Nat := 500

/-- Maximum number of disassembly lines requested for the tooltip preview. -/
def kMaxTooltipDisasmPreviewLines : Nat := 10

/-- Maximum number of hexdump bytes requested for the tooltip preview. -/
def kMaxTooltipHexdumpBytes : Nat := 64

namespace SearchModel

/-- Column index of the offset column. Modelled from the spec: the `Columns`
enum lives in `SearchWidget.h`, which is not part of this source tree; the spec
fixes the ordering (offset, size, code, data, comment). -/
def OFFSET : Nat := 0

/-- Column index of the size column (see `OFFSET` for the modelling note). -/
def SIZE : Nat := 1

/-- Column index of the code column (see `OFFSET` for the modelling note). -/
def CODE : Nat := 2

/-- Column index of the data column (see `OFFSET` for the modelling note). -/
def DATA : Nat := 3

/-- Column index of the comment column (see `OFFSET` for the modelling note). -/
def COMMENT : Nat := 4

/-- Number of columns (see `OFFSET` for the modelling note). -/
def COUNT : Nat := 5

/-- Embedding of `SearchModel::rowCount`: the number of rows is the size of the
result list. -/
def rowCount (search : List SearchDescription) : Nat := search.length

/-- Embedding of `SearchModel::columnCount`: always `Columns::COUNT`. -/
def columnCount : Nat := COUNT

end SearchModel

/-- The HTML envelope of the tooltip (`toolTipContent` in the source): the
font-sized wrapper `div` with the preview block inside. -/
def tooltipEnvelope (core : CutterCore) (previewContent : Str) : Str :=
  qs "<html><div style=\"font-family: " ++ core.baseFontFamily
    ++ qs "; font-size: " ++ natDecStr (max 6 (core.baseFontPointSize - 1)).toNat
    ++ qs "pt; white-space: nowrap;\">"
    ++ qs "<div style=\"margin-bottom: 10px;\"><strong>Preview</strong>:<br>"
    ++ previewContent ++ qs "</div>"
    ++ qs "</div></html>"

/-- Embedding of the tooltip construction inside `SearchModel::data`
(`Qt::ToolTipRole` branch): a disassembly preview joined with `<br>` when the
row's code field is non-empty, otherwise (result is data, or the preview
accumulated so far is empty — which at that point it always is) a hexdump
preview; wrapped in the HTML envelope sized by the base UI font. -/
def tooltipFor (core : CutterCore) (exp : SearchDescription) : Str :=
  let previewContent0 : Str := []
  let previewContent : Str :=
    if !exp.code.isEmpty then
      joinBr (core.getDisassemblyPreview exp.offset kMaxTooltipDisasmPreviewLines)
    else if !exp.data.isEmpty || previewContent0.isEmpty then
      core.getHexdumpPreview exp.offset kMaxTooltipHexdumpBytes
    else previewContent0
  tooltipEnvelope core previewContent

namespace SearchModel

/-- Embedding of `SearchModel::data`: rows at or beyond the result-set size
yield a null variant; otherwise the display role formats the addressed field,
the tooltip role yields the HTML preview, and the custom role boxes the raw
record. -/
def data (core : CutterCore) (search : List SearchDescription)
    (row col : Nat) (role : Role) : QVariantV :=
  if h : search.length ≤ row then QVariantV.null
  else
    let exp := search.get ⟨row, Nat.lt_of_not_le h⟩
    match role with
    | Role.display =>
      if col = OFFSET then QVariantV.vstr (core.addressString exp.offset)
      else if col = SIZE then QVariantV.vstr (core.sizeString exp.size)
      else if col = CODE then QVariantV.vstr exp.code
      else if col = DATA then QVariantV.vstr exp.data
      else if col = COMMENT then QVariantV.vstr (core.getCommentAt exp.offset)
      else QVariantV.null
    | Role.toolTip => QVariantV.vstr (tooltipFor core exp)
    | Role.searchDescriptionRole => QVariantV.vres exp
    | Role.other => QVariantV.null

/-- Embedding of `SearchModel::headerData`: fixed titles for the five columns
at the display role, null otherwise. -/
def headerData (sec : Nat) (role : Role) : QVariantV :=
  match role with
  | Role.display =>
    if sec = SIZE then QVariantV.vstr (qs "Size")
    else if sec = OFFSET then QVariantV.vstr (qs "Offset")
    else if sec = CODE then QVariantV.vstr (qs "Code")
    else if sec = DATA then QVariantV.vstr (qs "Data")
    else if sec = COMMENT then QVariantV.vstr (qs "Comment")
    else QVariantV.null
  | _ => QVariantV.null

/-- Embedding of `SearchModel::address`: the offset of the record at the given
row (the source indexes unconditionally, so the bound is a precondition). -/
def address (search : List SearchDescription) (row : Nat)
    (h : row < search.length) : Nat :=
  (search.get ⟨row, h⟩).offset

end SearchModel

/-- Modelled from the spec: the shared string-filter utility
`qhelpers::filterStringContains` (defined in `common/Helpers.cpp`, which is not
part of this source tree). Per the spec it accepts exactly when the string
contains the proxy's active filter string as a substring, under the proxy's
case policy (both sides case-folded when the filter is case-insensitive). -/
def filterStringContains (ci : Bool) (s filterText : Str) : Bool :=
  containsStr (caseFold ci s) (caseFold ci filterText)

namespace SearchSortFilterProxyModel

/-- Embedding of `SearchSortFilterProxyModel::filterAcceptsRow`: the row's
record is fetched through the model's custom role and its code field is passed
to the shared string-filter utility (a null variant decodes to a
default-constructed record, whose code field is empty). -/
def filterAcceptsRow (core : CutterCore) (ci : Bool) (filterText : Str)
    (search : List SearchDescription) (row : Nat) : Bool :=
  match SearchModel.data core search row 0 Role.searchDescriptionRole with
  | QVariantV.vres sd => filterStringContains ci sd.code filterText
  | _ => filterStringContains ci [] filterText

/-- Embedding of `SearchSortFilterProxyModel::lessThan`: typed comparison by
the selected column, falling back to the offset comparison for any other
column. -/
def lessThan (col : Nat) (getCommentAt : Nat → Str)
    (l r : SearchDescription) : Bool :=
  if col = SearchModel.SIZE then decide (l.size < r.size)
  else if col = SearchModel.OFFSET then decide (l.offset < r.offset)
  else if col = SearchModel.CODE then ltStr l.code r.code
  else if col = SearchModel.DATA then ltStr l.data r.data
  else if col = SearchModel.COMMENT then
    ltStr (getCommentAt l.offset) (getCommentAt r.offset)
  else decide (l.offset < r.offset)

/-- The non-strict order induced by `lessThan` on a fixed column: `a` may come
before `b` exactly when `b` is not strictly less than `a`. A stable sort with
comparator `lessThan` (what `QSortFilterProxyModel::sort` performs in ascending
order) arranges the rows pairwise in this relation. -/
def colRel (col : Nat) (getCommentAt : Nat → Str)
    (a b : SearchDescription) : Prop :=
  lessThan col getCommentAt b a = false

instance (col : Nat) (gc : Nat → Str) : DecidableRel (colRel col gc) :=
  fun _ _ => inferInstanceAs (Decidable (_ = false))

/-- Sorting the rows by a column in ascending order, as the proxy's sorting
framework does: a stable sort whose comparator is `lessThan` on that column. -/
def sortByColumn (col : Nat) (gc : Nat → Str)
    (rows : List SearchDescription) : List SearchDescription :=
  List.insertionSort (colRel col gc) rows

end SearchSortFilterProxyModel

/-- One item of a `QComboBox`: displayed text plus attached user data. -/
structure ComboItem where
  text : Str
  userData : Str
deriving DecidableEq

/-- Embedding of the `QComboBox` state the controller manipulates. -/
structure ComboBox where
  items : List ComboItem
  currentIndex : Int
deriving DecidableEq

/-- Embedding of `QComboBox::findData`: index of the first item whose user data
matches, `-1` when absent. -/
def ComboBox.findData (cb : ComboBox) (d : Str) : Int :=
  match cb.items.findIdx? (fun it => it.userData == d) with
  | some i => (i : Int)
  | none => -1

/-- Embedding of `QComboBox::setCurrentIndex`: an in-range index is selected,
anything else clears the selection. -/
def ComboBox.setCurrentIndex (cb : ComboBox) (i : Int) : ComboBox :=
  if 0 ≤ i ∧ i < (cb.items.length : Int) then { cb with currentIndex := i }
  else { cb with currentIndex := -1 }

/-- Embedding of `QComboBox::clear`: all items removed and the selection reset. -/
def ComboBox.clear (_cb : ComboBox) : ComboBox :=
  { items := [], currentIndex := -1 }

/-- Embedding of `QComboBox::addItem(text, userData)`: the item is appended,
and inserting into an empty box selects the first item. -/
def ComboBox.addItem (cb : ComboBox) (text userData : Str) : ComboBox :=
  { items := cb.items ++ [⟨text, userData⟩],
    currentIndex := if cb.items.isEmpty then 0 else cb.currentIndex }

/-- Embedding of the static `searchBoundaries` map. `QMap` iterates in
ascending key order, so the entries are listed here sorted by key. -/
def searchBoundaries : List (Str × Str) :=
  [ (qs "bin.section", qs "Current mapped section"),
    (qs "bin.sections", qs "All mapped sections"),
    (qs "block", qs "Current block"),
    (qs "io.map", qs "Current map"),
    (qs "io.maps", qs "All maps"),
    (qs "raw", qs "Raw") ]

/-- Embedding of the `searchBoundariesDebug` map, in ascending key order. -/
def searchBoundariesDebug : List (Str × Str) :=
  [ (qs "block", qs "Current block"),
    (qs "dbg.heap", qs "Heap"),
    (qs "dbg.map", qs "Memory map"),
    (qs "dbg.maps", qs "All memory maps"),
    (qs "dbg.stack", qs "Stack") ]

namespace SearchWidget

/-- Embedding of `SearchWidget::updateSearchBoundaries`: choose the debug
boundary map when debugging and not emulating, otherwise the static map; set
the selector to the position of the first new key among the old items; clear
the selector (signals blocked during repopulation, which the model elides);
repopulate it from the chosen map; clear the filter line edit. Returns the new
selector state and the new filter text. -/
def updateSearchBoundaries (currentlyDebugging currentlyEmulating : Bool)
    (searchInCombo : ComboBox) (_filterLineEdit : Str) : ComboBox × Str :=
  let boundaries :=
    if currentlyDebugging && !currentlyEmulating then searchBoundariesDebug
    else searchBoundaries
  let cb :=
    match boundaries.head? with
    | some kv => searchInCombo.setCurrentIndex (searchInCombo.findData kv.1)
    | none => searchInCombo
  let cb := cb.clear
  let cb := boundaries.foldl (fun c kv => c.addItem kv.2 kv.1) cb
  (cb, [])

/-- Embedding of `SearchWidget::checkSearchResultEmpty`: when the result set is
empty, one informational dialog is produced whose message echoes the
HTML-escaped search text; otherwise no dialog. -/
def checkSearchResultEmpty (search : List SearchDescription)
    (filterText : Str) : Option Str :=
  if search.isEmpty then
    some (qs "<b>" ++ qs "No results found for:" ++ qs "</b><br>"
          ++ toHtmlEscaped filterText)
  else none

/-- Embedding of one search trigger (Enter key or button click): the search
runs synchronously and the empty-result check follows; the returned pair is
the new result set and the list of dialogs shown. -/
def searchTriggerDialogs (core : CutterCore)
    (filterText searchSpace searchIn : Str) :
    List SearchDescription × List Str :=
  let results := core.getAllSearch filterText searchSpace searchIn
  (results, (checkSearchResultEmpty results filterText).toList)

/-- Embedding of `SearchWidget::updatePlaceholderText`: the filter input's
placeholder example per selected search-space index, defaulting to the
assembly-mnemonic example. -/
def updatePlaceholderText (index : Int) : Str :=
  if index = 1 then qs "foobar"
  else if index = 2 then qs "FooBar"
  else if index = 3 then qs "deadbeef"
  else if index = 4 then qs "pop,,pop"
  else if index = 5 then qs "0xdeadbeef"
  else qs "jmp rax"

end SearchWidget

/-- Boolean test that a list of keys is in strictly ascending `ltStr` order
(the iteration order of a `QMap`). -/
def strictlyAscending : List Str → Bool
  | [] => true
  | [_] => true
  | a :: b :: t => ltStr a b && strictlyAscending (b :: t)

/-! Helper lemmas about the string embedding. -/

lemma isPrefixStr_refl : ∀ s : Str, isPrefixStr s s = true
  | [] => rfl
  | c :: t => by simp [isPrefixStr, isPrefixStr_refl t]

lemma isPrefixStr_append_left : ∀ (p a b : Str),
    isPrefixStr p a = true → isPrefixStr p (a ++ b) = true
  | [], _, _, _ => rfl
  | _ :: _, [], _, h => by cases h
  | c :: cs, a :: as, b, h => by
    simp [isPrefixStr] at h ⊢
    exact ⟨h.1, isPrefixStr_append_left cs as b h.2⟩

lemma containsStr_nil_right : ∀ hay : Str, containsStr hay [] = true
  | [] => rfl
  | _ :: _ => rfl

lemma containsStr_refl : ∀ s : Str, containsStr s s = true
  | [] => rfl
  | c :: t => by simp [containsStr, isPrefixStr_refl]

lemma containsStr_append_suffix : ∀ (a m : Str), containsStr (a ++ m) m = true
  | [], m => containsStr_refl m
  | c :: t, m => by simp [containsStr, containsStr_append_suffix t m]

lemma containsStr_append_of_left : ∀ (a b m : Str),
    containsStr a m = true → containsStr (a ++ b) m = true
  | [], b, m, h => by
    have hm : m = [] := by
      cases m with
      | nil => rfl
      | cons c t => simp [containsStr, List.isEmpty] at h
    subst hm
    exact containsStr_nil_right b
  | c :: t, b, m, h => by
    simp [containsStr] at h ⊢
    rcases h with h | h
    · exact Or.inl (isPrefixStr_append_left m (c :: t) b h)
    · exact Or.inr (containsStr_append_of_left t b m h)

lemma containsStr_append_of_right : ∀ (a b m : Str),
    containsStr b m = true → containsStr (a ++ b) m = true
  | [], _, _, h => h
  | c :: t, b, m, h => by
    simp [containsStr]
    exact Or.inr (containsStr_append_of_right t b m h)

lemma caseFold_nil (ci : Bool) : caseFold ci [] = [] := by
  cases ci <;> simp [caseFold, lowerStr]

lemma filterStringContains_nil_filter (ci : Bool) (s : Str) :
    filterStringContains ci s [] = true := by
  simp [filterStringContains, caseFold_nil, containsStr_nil_right]

/-! Concrete fixtures for witnesses and counterexamples (the two rows are the
spec's example scenario). -/

/-- First example row from the spec's example scenario. -/
def sd1 : SearchDescription :=
  { offset := 0x100, size := 4, code := qs "mov eax, ebx", data := [] }

/-- Second example row from the spec's example scenario. -/
def sd2 : SearchDescription :=
  { offset := 0x200, size := 8, code := [], data := qs "deadbeef" }

/-- A row whose code field is non-empty while the engine (below, `coreC`) has
no disassembly for it. -/
def sdC : SearchDescription :=
  { offset := 0, size := 0, code := qs "a", data := [] }

/-- A concrete engine used by witnesses. -/
def coreW : CutterCore :=
  { getCommentAt := fun _ => [],
    getDisassemblyPreview := fun _ _ => [qs "mov eax, ebx"],
    getHexdumpPreview := fun _ _ => qs "de ad be ef",
    getAllSearch := fun _ _ _ => [],
    addressString := fun _ => [],
    sizeString := fun _ => [],
    baseFontFamily := qs "mono",
    baseFontPointSize := 11 }

/-- A concrete engine with no disassembly available anywhere and a distinctive
hexdump preview. -/
def coreC : CutterCore :=
  { getCommentAt := fun _ => [],
    getDisassemblyPreview := fun _ _ => [],
    getHexdumpPreview := fun _ _ => qs "~",
    getAllSearch := fun _ _ _ => [],
    addressString := fun _ => [],
    sizeString := fun _ => [],
    baseFontFamily := qs "f",
    baseFontPointSize := 10 }

/-! Claim theorems. -/

/-- C6: for every result set (including the empty one) the model reports
exactly as many rows as the result set has entries, and always five columns,
titled (in order) Offset, Size, Code, Data, Comment. -/
theorem searchModel_rowCount_columnCount_spec (search : List SearchDescription) :
    SearchModel.rowCount search = search.length
    ∧ SearchModel.columnCount = SearchModel.COUNT
    ∧ SearchModel.COUNT = 5
    ∧ (List.range SearchModel.COUNT).map
        (fun s => SearchModel.headerData s Role.display)
      = [QVariantV.vstr (qs "Offset"), QVariantV.vstr (qs "Size"),
         QVariantV.vstr (qs "Code"), QVariantV.vstr (qs "Data"),
         QVariantV.vstr (qs "Comment")] :=
  ⟨rfl, rfl, rfl, by decide⟩

/-- C7: for every in-range row index, the model's address lookup returns
exactly the offset field of the record at that row — the same record the model
serves through its custom role. -/
theorem searchModel_address_returns_offset (core : CutterCore)
    (search : List SearchDescription) (row : Nat) (h : row < search.length) :
    SearchModel.data core search row 0 Role.searchDescriptionRole
        = QVariantV.vres (search.get ⟨row, h⟩)
    ∧ SearchModel.address search row h = (search.get ⟨row, h⟩).offset := by
  constructor
  · rw [SearchModel.data, dif_neg (Nat.not_le.mpr h)]
  · rfl

/-- Witness for C7 at the spec's example row. -/
theorem searchModel_address_returns_offset_witness :
    SearchModel.address [sd1] 0 (by decide)
      = (([sd1] : List SearchDescription).get ⟨0, by decide⟩).offset :=
  (searchModel_address_returns_offset coreW [sd1] 0 (by decide)).2

/-- C8: selecting a search-space index sets the filter placeholder to the
example literal of that search kind — index 3 (hex string) yields `deadbeef` —
and every index outside 1..5 (the search-space list has indices 0..5, index 0
being asm code) yields the assembly-mnemonic example `jmp rax`. -/
theorem updatePlaceholderText_spec :
    SearchWidget.updatePlaceholderText 0 = qs "jmp rax"
    ∧ SearchWidget.updatePlaceholderText 1 = qs "foobar"
    ∧ SearchWidget.updatePlaceholderText 2 = qs "FooBar"
    ∧ SearchWidget.updatePlaceholderText 3 = qs "deadbeef"
    ∧ SearchWidget.updatePlaceholderText 4 = qs "pop,,pop"
    ∧ SearchWidget.updatePlaceholderText 5 = qs "0xdeadbeef"
    ∧ (∀ i : Int, i < 1 ∨ 5 < i →
        SearchWidget.updatePlaceholderText i = qs "jmp rax") := by
  refine ⟨rfl, rfl, rfl, rfl, rfl, rfl, ?_⟩
  intro i hi
  have h1 : ¬ i = 1 := by omega
  have h2 : ¬ i = 2 := by omega
  have h3 : ¬ i = 3 := by omega
  have h4 : ¬ i = 4 := by omega
  have h5 : ¬ i = 5 := by omega
  simp [SearchWidget.updatePlaceholderText, h1, h2, h3, h4, h5]

/-- Witness for C8 at the unrecognized index `-1`. -/
theorem updatePlaceholderText_spec_witness :
    ((-1 : Int) < 1 ∨ 5 < (-1 : Int))
    ∧ SearchWidget.updatePlaceholderText (-1) = qs "jmp rax" :=
  ⟨Or.inl (by decide),
   updatePlaceholderText_spec.2.2.2.2.2.2 (-1) (Or.inl (by decide))⟩

/-- C9: for every role and every index whose row is at or beyond the result
set's size, the model's data lookup returns the null variant. -/
theorem searchModel_data_out_of_range_null (core : CutterCore)
    (search : List SearchDescription) (row col : Nat) (role : Role)
    (h : search.length ≤ row) :
    SearchModel.data core search row col role = QVariantV.null := by
  rw [SearchModel.data, dif_pos h]

/-- Witness for C9: row 0 of the empty result set. -/
theorem searchModel_data_out_of_range_null_witness :
    (([] : List SearchDescription).length ≤ 0)
    ∧ SearchModel.data coreW [] 0 0 Role.display = QVariantV.null :=
  ⟨by decide, searchModel_data_out_of_range_null coreW [] 0 0 Role.display (by decide)⟩

/-- C3: a boundary refresh while debugging and not emulating installs exactly
the debug boundary set (all memory maps / memory map / current block / stack /
heap); in every other state it installs exactly the static set (section(s),
block, map(s), raw). -/
theorem updateSearchBoundaries_items_spec (dbg emu : Bool) (cb : ComboBox)
    (ft : Str) :
    (SearchWidget.updateSearchBoundaries dbg emu cb ft).1.items
      = (if dbg && !emu then searchBoundariesDebug else searchBoundaries).map
          (fun kv => ⟨kv.2, kv.1⟩) := by
  cases dbg <;> cases emu <;> rfl

/-- C10: a boundary refresh never restores the previously selected boundary:
the refreshed selector does not depend on the selector's prior state at all,
the filter text comes out empty, the selection lands on index 0, i.e. on the
first entry (in ascending key order) of the newly installed set, and the
installed keys are in strictly ascending key order. -/
theorem updateSearchBoundaries_resets_selection (dbg emu : Bool)
    (cb : ComboBox) (ft : Str) :
    (SearchWidget.updateSearchBoundaries dbg emu cb ft).2 = []
    ∧ (SearchWidget.updateSearchBoundaries dbg emu cb ft).1
        = (SearchWidget.updateSearchBoundaries dbg emu ⟨[], -1⟩ []).1
    ∧ (SearchWidget.updateSearchBoundaries dbg emu cb ft).1.currentIndex = 0
    ∧ ((SearchWidget.updateSearchBoundaries dbg emu cb ft).1.items.map
          ComboItem.userData).head?
        = ((if dbg && !emu then searchBoundariesDebug else searchBoundaries).map
            Prod.fst).head?
    ∧ strictlyAscending
        ((SearchWidget.updateSearchBoundaries dbg emu cb ft).1.items.map
          ComboItem.userData) = true := by
  cases dbg <;> cases emu <;> exact ⟨rfl, rfl, rfl, rfl, rfl⟩

/-- C1: for every in-range row, the proxy accepts the row exactly when the
row's code field contains the active filter string as a substring under the
shared utility's case policy (both sides case-folded when case-insensitive);
the empty filter accepts every row. -/
theorem filterAcceptsRow_iff_code_contains (core : CutterCore) (ci : Bool)
    (filterText : Str) (search : List SearchDescription) (row : Nat)
    (sd : SearchDescription) (h : search.get? row = some sd) :
    (SearchSortFilterProxyModel.filterAcceptsRow core ci filterText search row = true ↔
      containsStr (caseFold ci sd.code) (caseFold ci filterText) = true)
    ∧ SearchSortFilterProxyModel.filterAcceptsRow core ci [] search row = true := by
  obtain ⟨hlt, hget⟩ := List.get?_eq_some.mp h
  have hd : SearchModel.data core search row 0 Role.searchDescriptionRole
      = QVariantV.vres sd := by
    rw [SearchModel.data, dif_neg (Nat.not_le.mpr hlt)]
    exact congrArg QVariantV.vres hget
  constructor
  · rw [SearchSortFilterProxyModel.filterAcceptsRow, hd]
    exact Iff.rfl
  · rw [SearchSortFilterProxyModel.filterAcceptsRow, hd]
    exact filterStringContains_nil_filter ci sd.code

/-- Witness for C1: the spec's example scenario, filter `mov` against the row
whose code is `mov eax, ebx` (accepted) at the case-sensitive policy. -/
theorem filterAcceptsRow_iff_code_contains_witness :
    (([sd1, sd2] : List SearchDescription).get? 0 = some sd1)
    ∧ (SearchSortFilterProxyModel.filterAcceptsRow coreW false (qs "mov")
          [sd1, sd2] 0 = true ↔
        containsStr (caseFold false sd1.code) (caseFold false (qs "mov")) = true) :=
  ⟨by decide,
   (filterAcceptsRow_iff_code_contains coreW false (qs "mov") [sd1, sd2] 0 sd1
      (by decide)).1⟩

/-- C5: a completed search shows exactly one informational dialog precisely
when the result set is empty, and every dialog shown contains the search text
HTML-escaped. -/
theorem checkSearchResultEmpty_spec (core : CutterCore)
    (filterText searchSpace searchIn : Str) :
    ((SearchWidget.searchTriggerDialogs core filterText searchSpace searchIn).2.length = 1
      ↔ (SearchWidget.searchTriggerDialogs core filterText searchSpace searchIn).1 = [])
    ∧ (∀ msg, msg ∈ (SearchWidget.searchTriggerDialogs core filterText searchSpace searchIn).2 →
        containsStr msg (toHtmlEscaped filterText) = true) := by
  unfold SearchWidget.searchTriggerDialogs
  cases hres : core.getAllSearch filterText searchSpace searchIn with
  | nil =>
    refine ⟨by simp [SearchWidget.checkSearchResultEmpty], ?_⟩
    intro msg hmsg
    simp [SearchWidget.checkSearchResultEmpty] at hmsg
    subst hmsg
    refine containsStr_append_of_right _ _ _ ?_
    refine containsStr_append_of_right _ _ _ ?_
    exact containsStr_append_suffix _ _
  | cons r rs =>
    refine ⟨by simp [SearchWidget.checkSearchResultEmpty], ?_⟩
    intro msg hmsg
    simp [SearchWidget.checkSearchResultEmpty] at hmsg

/-- Witness for C5: an empty search for the text `<` produces exactly one
dialog, and that dialog's message contains the escaped text `&lt;`. -/
theorem checkSearchResultEmpty_spec_witness :
    ((SearchWidget.searchTriggerDialogs coreW (qs "<") (qs "/xj") (qs "raw")).2.length = 1)
    ∧ containsStr (qs "<b>No results found for:</b><br>&lt;")
        (toHtmlEscaped (qs "<")) = true :=
  ⟨(checkSearchResultEmpty_spec coreW (qs "<") (qs "/xj") (qs "raw")).1.mpr rfl,
   (checkSearchResultEmpty_spec coreW (qs "<") (qs "/xj") (qs "raw")).2
     (qs "<b>No results found for:</b><br>&lt;") (by decide)⟩

/-! Sortedness of the proxy's ascending sort. -/

lemma sortByColumn_offset_sorted (gc : Nat → Str)
    (rows : List SearchDescription) :
    List.Sorted (· ≤ ·)
      ((SearchSortFilterProxyModel.sortByColumn SearchModel.OFFSET gc rows).map
        SearchDescription.offset) := by
  haveI : IsTotal SearchDescription
      (SearchSortFilterProxyModel.colRel SearchModel.OFFSET gc) := ⟨by
    intro a b
    simp [SearchSortFilterProxyModel.colRel, SearchSortFilterProxyModel.lessThan,
      SearchModel.OFFSET, SearchModel.SIZE]
    omega⟩
  haveI : IsTrans SearchDescription
      (SearchSortFilterProxyModel.colRel SearchModel.OFFSET gc) := ⟨by
    intro a b c hab hbc
    simp [SearchSortFilterProxyModel.colRel, SearchSortFilterProxyModel.lessThan,
      SearchModel.OFFSET, SearchModel.SIZE] at hab hbc ⊢
    omega⟩
  have hs := List.sorted_insertionSort
    (SearchSortFilterProxyModel.colRel SearchModel.OFFSET gc) rows
  refine List.pairwise_map.mpr (List.Pairwise.imp ?_ hs)
  intro a b hab
  simp [SearchSortFilterProxyModel.colRel, SearchSortFilterProxyModel.lessThan,
    SearchModel.OFFSET, SearchModel.SIZE] at hab
  omega

lemma sortByColumn_size_sorted (gc : Nat → Str)
    (rows : List SearchDescription) :
    List.Sorted (· ≤ ·)
      ((SearchSortFilterProxyModel.sortByColumn SearchModel.SIZE gc rows).map
        SearchDescription.size) := by
  haveI : IsTotal SearchDescription
      (SearchSortFilterProxyModel.colRel SearchModel.SIZE gc) := ⟨by
    intro a b
    simp [SearchSortFilterProxyModel.colRel, SearchSortFilterProxyModel.lessThan,
      SearchModel.SIZE]
    omega⟩
  haveI : IsTrans SearchDescription
      (SearchSortFilterProxyModel.colRel SearchModel.SIZE gc) := ⟨by
    intro a b c hab hbc
    simp [SearchSortFilterProxyModel.colRel, SearchSortFilterProxyModel.lessThan,
      SearchModel.SIZE] at hab hbc ⊢
    omega⟩
  have hs := List.sorted_insertionSort
    (SearchSortFilterProxyModel.colRel SearchModel.SIZE gc) rows
  refine List.pairwise_map.mpr (List.Pairwise.imp ?_ hs)
  intro a b hab
  simp [SearchSortFilterProxyModel.colRel, SearchSortFilterProxyModel.lessThan,
    SearchModel.SIZE] at hab
  omega

/-- C2: the proxy's row comparison is the size comparison on the size column,
the offset comparison on the offset column, the lexical comparison of the code
and data fields on their columns, the lexical comparison of the engine's
comments on the comment column, and the offset comparison on every other
column; consequently an ascending stable sort by the offset column yields
non-decreasing offsets, and by the size column non-decreasing sizes. -/
theorem lessThan_column_spec_and_sorted (gc : Nat → Str)
    (l r : SearchDescription) (rows : List SearchDescription) :
    SearchSortFilterProxyModel.lessThan SearchModel.SIZE gc l r
        = decide (l.size < r.size)
    ∧ SearchSortFilterProxyModel.lessThan SearchModel.OFFSET gc l r
        = decide (l.offset < r.offset)
    ∧ SearchSortFilterProxyModel.lessThan SearchModel.CODE gc l r
        = ltStr l.code r.code
    ∧ SearchSortFilterProxyModel.lessThan SearchModel.DATA gc l r
        = ltStr l.data r.data
    ∧ SearchSortFilterProxyModel.lessThan SearchModel.COMMENT gc l r
        = ltStr (gc l.offset) (gc r.offset)
    ∧ (∀ col : Nat, SearchModel.COUNT ≤ col →
        SearchSortFilterProxyModel.lessThan col gc l r
          = decide (l.offset < r.offset))
    ∧ List.Sorted (· ≤ ·)
        ((SearchSortFilterProxyModel.sortByColumn SearchModel.OFFSET gc rows).map
          SearchDescription.offset)
    ∧ List.Sorted (· ≤ ·)
        ((SearchSortFilterProxyModel.sortByColumn SearchModel.SIZE gc rows).map
          SearchDescription.size) := by
  refine ⟨rfl, rfl, rfl, rfl, rfl, ?_, sortByColumn_offset_sorted gc rows,
    sortByColumn_size_sorted gc rows⟩
  intro col hcol
  simp only [SearchModel.COUNT] at hcol
  have h1 : ¬ col = SearchModel.SIZE := by simp only [SearchModel.SIZE]; omega
  have h2 : ¬ col = SearchModel.OFFSET := by simp only [SearchModel.OFFSET]; omega
  have h3 : ¬ col = SearchModel.CODE := by simp only [SearchModel.CODE]; omega
  have h4 : ¬ col = SearchModel.DATA := by simp only [SearchModel.DATA]; omega
  have h5 : ¬ col = SearchModel.COMMENT := by simp only [SearchModel.COMMENT]; omega
  simp [SearchSortFilterProxyModel.lessThan, h1, h2, h3, h4, h5]

/-- Witness for C2: the fallback comparison at the out-of-range column 7
against the spec's two example rows. -/
theorem lessThan_column_spec_and_sorted_witness :
    (SearchModel.COUNT ≤ 7)
    ∧ SearchSortFilterProxyModel.lessThan 7 coreW.getCommentAt sd1 sd2
        = decide (sd1.offset < sd2.offset) :=
  ⟨by decide,
   (lessThan_column_spec_and_sorted coreW.getCommentAt sd1 sd2 []).2.2.2.2.2.1 7
     (by decide)⟩

/-! Tooltip lemmas for C4. -/

lemma tooltipEnvelope_html_prefix (core : CutterCore) (pc : Str) :
    isPrefixStr (qs "<html>") (tooltipEnvelope core pc) = true := by
  unfold tooltipEnvelope
  apply isPrefixStr_append_left
  apply isPrefixStr_append_left
  apply isPrefixStr_append_left
  apply isPrefixStr_append_left
  apply isPrefixStr_append_left
  apply isPrefixStr_append_left
  apply isPrefixStr_append_left
  apply isPrefixStr_append_left
  decide

lemma tooltipEnvelope_contains (core : CutterCore) (pc : Str) :
    containsStr (tooltipEnvelope core pc) pc = true := by
  unfold tooltipEnvelope
  apply containsStr_append_of_left
  apply containsStr_append_of_left
  exact containsStr_append_suffix _ _

lemma tooltipFor_code (core : CutterCore) (exp : SearchDescription)
    (hc : exp.code ≠ []) :
    tooltipFor core exp
      = tooltipEnvelope core
          (joinBr (core.getDisassemblyPreview exp.offset
            kMaxTooltipDisasmPreviewLines)) := by
  cases hcode : exp.code with
  | nil => exact absurd hcode hc
  | cons c cs => simp [tooltipFor, hcode]

lemma tooltipFor_nocode (core : CutterCore) (exp : SearchDescription)
    (hc : exp.code = []) :
    tooltipFor core exp
      = tooltipEnvelope core
          (core.getHexdumpPreview exp.offset kMaxTooltipHexdumpBytes) := by
  simp [tooltipFor, hc]

/-- C4 counterexample: a row whose code field is non-empty while the engine has
no disassembly available for it (the preview call returns no lines). The claim
predicts the tooltip then contains the hexdump preview, but the tooltip of this
row does not contain it: the code branch is taken regardless. -/
theorem tooltip_hexdump_claim_counterexample :
    (coreC.getDisassemblyPreview sdC.offset kMaxTooltipDisasmPreviewLines = [])
    ∧ sdC.code ≠ []
    ∧ containsStr (tooltipFor coreC sdC)
        (coreC.getHexdumpPreview sdC.offset kMaxTooltipHexdumpBytes) = false :=
  ⟨rfl, by decide, by decide⟩

/-- C4 amended: the tooltip role returns the HTML fragment built by the fixed
envelope; it contains the (10-line-bounded) disassembly preview whenever the
row's code field is non-empty — even when that preview is empty, with no
hexdump fallback — and the (64-byte-bounded) hexdump preview exactly when the
code field is empty (data-only rows or rows without code). -/
theorem tooltip_preview_amended (core : CutterCore) (exp : SearchDescription)
    (search : List SearchDescription) (row col : Nat)
    (h : row < search.length) :
    SearchModel.data core search row col Role.toolTip
        = QVariantV.vstr (tooltipFor core (search.get ⟨row, h⟩))
    ∧ isPrefixStr (qs "<html>") (tooltipFor core exp) = true
    ∧ (exp.code ≠ [] →
        containsStr (tooltipFor core exp)
          (joinBr (core.getDisassemblyPreview exp.offset
            kMaxTooltipDisasmPreviewLines)) = true)
    ∧ (exp.code = [] →
        containsStr (tooltipFor core exp)
          (core.getHexdumpPreview exp.offset kMaxTooltipHexdumpBytes) = true)
    ∧ kMaxTooltipDisasmPreviewLines = 10
    ∧ kMaxTooltipHexdumpBytes = 64 := by
  refine ⟨?_, ?_, ?_, ?_, rfl, rfl⟩
  · rw [SearchModel.data, dif_neg (Nat.not_le.mpr h)]
  · cases hcode : exp.code with
    | nil => rw [tooltipFor_nocode core exp hcode]; exact tooltipEnvelope_html_prefix _ _
    | cons c cs =>
      rw [tooltipFor_code core exp (by rw [hcode]; exact List.cons_ne_nil c cs)]
      exact tooltipEnvelope_html_prefix _ _
  · intro hc
    rw [tooltipFor_code core exp hc]
    exact tooltipEnvelope_contains _ _
  · intro hc
    rw [tooltipFor_nocode core exp hc]
    exact tooltipEnvelope_contains _ _

/-- Witness for C4: a row with code present, whose tooltip contains the
engine's one-line disassembly preview. -/
theorem tooltip_preview_amended_witness :
    (0 < ([sdC] : List SearchDescription).length)
    ∧ sdC.code ≠ []
    ∧ containsStr (tooltipFor coreW sdC)
        (joinBr (coreW.getDisassemblyPreview sdC.offset
          kMaxTooltipDisasmPreviewLines)) = true :=
  ⟨by decide, by decide,
   (tooltip_preview_amended coreW sdC [sdC] 0 0 (by decide)).2.2.1 (by decide)⟩
